import Mathlib

/-!
Verification of the lov-mirror ingestion pipeline.

Shallow embedding of the `lov-mirror` TypeScript repository
(`scripts/fetch-lov.ts`, `scripts/lov-mirror/{lov,rdf,http,encode,terms}.ts`
and the pipeline module) together with proofs about the embedded
definitions.

Conventions of the embedding:
* JS strings are Lean `String`s (sequences of Unicode scalar values).
* JS `null`/`undefined`-able values are `Option`s.
* External library calls (the N3 parser/writer, `Date.parse`, the network)
  are oracle parameters of the embedded functions; the file-system effects
  of the pipeline are returned explicitly as a list of write actions.
* Field `prefix` of the source records is called `pfx` here and field
  `namespace` is called `nspace` (both are reserved words in Lean).
-/

namespace LovMirror

/-! ## Small JS string helpers -/

/-- JS `String.prototype.trim` (on the whitespace classes that occur in
this pipeline): drop leading and trailing whitespace characters. -/
def jsTrim (s : String) : String :=
  ⟨((s.data.dropWhile Char.isWhitespace).reverse.dropWhile Char.isWhitespace).reverse⟩

/-- JS `String.prototype.toLowerCase` restricted to ASCII, which is the
only case-folding exercised by the MIME/extension tables. -/
def jsToLower (s : String) : String :=
  ⟨s.data.map Char.toLower⟩

/-! ## `http.ts`: `contentTypeBase` and `urlExt` -/

/-- `contentTypeBase` from `http.ts`: take the part before the first `;`,
trim it and lower-case it; `null` stays `null`. -/
def contentTypeBase (ct : Option String) : Option String :=
  match ct with
  | none => none
  | some s => some (jsToLower (jsTrim ⟨s.data.takeWhile (· ≠ ';')⟩))

/-- A character matched by `[a-z0-9]` under the `/i` flag of the
`urlExt` regular expression. -/
def isExtChar (c : Char) : Bool :=
  (('a' ≤ c && c ≤ 'z') || ('A' ≤ c && c ≤ 'Z') || ('0' ≤ c && c ≤ '9'))

/-- Scanner for the regex `/\.([a-z0-9]+)(?:\?|#|$)/i` of `urlExt`:
at each `.` take the maximal alphanumeric run after it and accept when
that run is non-empty and followed by `?`, `#` or the end of the string;
otherwise keep scanning to the right. -/
def urlExtAux : List Char → Option (List Char)
  | [] => none
  | c :: rest =>
    if c = '.' then
      let run := rest.takeWhile isExtChar
      let after := rest.drop run.length
      if run ≠ [] ∧ (after = [] ∨ after.head? = some '?' ∨ after.head? = some '#') then
        some run
      else
        urlExtAux rest
    else
      urlExtAux rest

/-- `urlExt` from `http.ts`: first match of `/\.([a-z0-9]+)(?:\?|#|$)/i`,
lower-cased; the empty string when there is no match. -/
def urlExt (url : String) : String :=
  match urlExtAux url.data with
  | none => ""
  | some run => jsToLower ⟨run⟩

/-! ## `rdf.ts`: the format detector -/

/-- The four N3-supported serializations. -/
inductive Format where
  | turtle
  | n3
  | ntriples
  | trig
deriving DecidableEq, Repr

/-- The string naming a `Format` in the source (used in failure reasons). -/
def formatName : Format → String
  | .turtle => "turtle"
  | .n3 => "n3"
  | .ntriples => "ntriples"
  | .trig => "trig"

/-- `n3FormatFor` from `rdf.ts`: MIME table, then extension table, then the
explicit unsupported families (RDF/XML and JSON-LD), then the turtle
best-effort default. -/
def n3FormatFor (contentType : Option String) (sourceUrl : String) : Option Format :=
  let ct := contentTypeBase contentType
  if ct = some "text/turtle" ∨ ct = some "application/x-turtle" then some .turtle
  else if ct = some "text/n3" ∨ ct = some "text/rdf+n3" then some .n3
  else if ct = some "application/n-triples" then some .ntriples
  else if ct = some "application/trig" ∨ ct = some "text/trig" then some .trig
  else
    let ext := urlExt sourceUrl
    if ext = "ttl" then some .turtle
    else if ext = "n3" then some .n3
    else if ext = "nt" then some .ntriples
    else if ext = "trig" then some .trig
    else if ct = some "application/rdf+xml" ∨ ext = "rdf" ∨ ext = "owl" ∨ ext = "xml" then
      none
    else if ct = some "application/ld+json" ∨ ext = "jsonld" ∨ ext = "json" then
      none
    else
      some .turtle

/-! ## `encode.ts` and the JS URI-encoding builtins

`encPrefixSegment` and `encUriSegment` from `encode.ts` are both
`encodeURIComponent`.  `encodeURIComponent` and `decodeURIComponent` are
the ECMAScript builtins, embedded here over Unicode scalar values:
a character in the unreserved set is kept, any other character is
percent-escaped byte-by-byte in its UTF-8 encoding (uppercase hex);
decoding parses `%XX` escapes, validates UTF-8 (length, continuation
bytes, overlong forms, code-point range) and fails with `none` where the
builtin throws `URIError`. -/


def toHexDigit (n : Nat) : Char :=
  if n < 10 then Char.ofNat (48 + n) else Char.ofNat (55 + n)

def fromHexDigit (c : Char) : Option Nat :=
  if '0' ≤ c ∧ c ≤ '9' then some (c.toNat - 48)
  else if 'A' ≤ c ∧ c ≤ 'F' then some (c.toNat - 55)
  else if 'a' ≤ c ∧ c ≤ 'f' then some (c.toNat - 87)
  else none

def utf8Bytes (n : Nat) : List Nat :=
  if n < 128 then [n]
  else if n < 2048 then [192 + n / 64, 128 + n % 64]
  else if n < 65536 then [224 + n / 4096, 128 + n / 64 % 64, 128 + n % 64]
  else [240 + n / 262144, 128 + n / 4096 % 64, 128 + n / 64 % 64, 128 + n % 64]

def escByte (b : Nat) : List Char := ['%', toHexDigit (b / 16), toHexDigit (b % 16)]

def isUnreservedChar (c : Char) : Bool :=
  c.isAlpha || c.isDigit ||
    (c = '-' || c = '_' || c = '.' || c = '!' || c = '~' || c = '*' || c = '\'' || c = '(' || c = ')')

def encChar (c : Char) : List Char :=
  if isUnreservedChar c then [c] else (utf8Bytes c.toNat).flatMap escByte

def encodeURIComponent (s : String) : String := ⟨s.data.flatMap encChar⟩

def mkChar? (n : Nat) : Option Char :=
  if n.isValidChar then some (Char.ofNat n) else none

def hexByte (a b : Char) : Option Nat :=
  match fromHexDigit a, fromHexDigit b with
  | some hi, some lo => some (16 * hi + lo)
  | _, _ => none

def isContByte (y : Nat) : Bool := 128 ≤ y && y < 192

def contByte : List Char → Option (Nat × List Char)
  | '%' :: a :: b :: rest =>
    match hexByte a b with
    | some y => if isContByte y then some (y, rest) else none
    | none => none
  | _ => none

def cons? (c? : Option Char) (t? : Option (List Char)) : Option (List Char) :=
  match c?, t? with
  | some c, some t => some (c :: t)
  | _, _ => none

def mkChar2? (y1 y2 : Nat) : Option Char := mkChar? ((y1 - 192) * 64 + (y2 - 128))

def mkChar3? (y1 y2 y3 : Nat) : Option Char :=
  if 2048 ≤ (y1 - 224) * 4096 + (y2 - 128) * 64 + (y3 - 128) then
    mkChar? ((y1 - 224) * 4096 + (y2 - 128) * 64 + (y3 - 128))
  else none

def mkChar4? (y1 y2 y3 y4 : Nat) : Option Char :=
  if 65536 ≤ (y1 - 240) * 262144 + (y2 - 128) * 4096 + (y3 - 128) * 64 + (y4 - 128) then
    mkChar? ((y1 - 240) * 262144 + (y2 - 128) * 4096 + (y3 - 128) * 64 + (y4 - 128))
  else none

theorem contByte_length {l rest : List Char} {y : Nat} (h : contByte l = some (y, rest)) :
    rest.length + 3 = l.length := by
  unfold contByte at h
  split at h
  · split at h
    · split at h
      · simp only [Option.some.injEq, Prod.mk.injEq] at h
        obtain ⟨rfl, rfl⟩ := h
        simp
      · simp at h
    · simp at h
  · simp at h

def decodeURIComponentAux : List Char → Option (List Char)
  | [] => some []
  | c :: rest =>
    if c = '%' then
      match rest with
      | a :: b :: rest1 =>
        match hexByte a b with
        | some y1 =>
          if y1 < 128 then cons? (mkChar? y1) (decodeURIComponentAux rest1)
          else if y1 < 194 then none
          else if y1 < 224 then
            match h2 : contByte rest1 with
            | some (y2, rest2) => cons? (mkChar2? y1 y2) (decodeURIComponentAux rest2)
            | none => none
          else if y1 < 240 then
            match h2 : contByte rest1 with
            | some (y2, rest2) =>
              match h3 : contByte rest2 with
              | some (y3, rest3) => cons? (mkChar3? y1 y2 y3) (decodeURIComponentAux rest3)
              | none => none
            | none => none
          else if y1 < 245 then
            match h2 : contByte rest1 with
            | some (y2, rest2) =>
              match h3 : contByte rest2 with
              | some (y3, rest3) =>
                match h4 : contByte rest3 with
                | some (y4, rest4) => cons? (mkChar4? y1 y2 y3 y4) (decodeURIComponentAux rest4)
                | none => none
              | none => none
            | none => none
          else none
        | none => none
      | _ => none
    else cons? (some c) (decodeURIComponentAux rest)
termination_by l => l.length
decreasing_by
  · simp only [List.length_cons]; omega
  · have := contByte_length h2; simp only [List.length_cons]; omega
  · have := contByte_length h2; have := contByte_length h3
    simp only [List.length_cons]; omega
  · have := contByte_length h2; have := contByte_length h3; have := contByte_length h4
    simp only [List.length_cons]; omega
  · simp only [List.length_cons]; omega

def decodeURIComponent (s : String) : Option String :=
  (decodeURIComponentAux s.data).map fun l => ⟨l⟩

/-- `encPrefixSegment` from `encode.ts`. -/
def encPrefixSegment (x : String) : String := encodeURIComponent x

/-- `encUriSegment` from `encode.ts`. -/
def encUriSegment (x : String) : String := encodeURIComponent x

/-- `safeEncodeSegment` from `fetch-lov.ts`. -/
def safeEncodeSegment (x : String) : String := encodeURIComponent x

/-! ## The RDF data model used by `terms.ts`

A `Term` is an N3 term as far as this pipeline inspects it: a named node
(IRI), a blank node, or a literal (only the literal's string value is ever
read, via `litValue`).  A store is a `List Quad` in the store's iteration
order; the graph component of a quad is never consulted by the source. -/

inductive Term where
  | iri (value : String)
  | blank (value : String)
  | lit (value : String)
deriving DecidableEq, Repr

structure Quad where
  subj : Term
  pred : Term
  obj : Term
deriving DecidableEq, Repr

/-- Namespace constants from `terms.ts`. -/
def RDF : String := "http://www.w3.org/1999/02/22-rdf-syntax-ns#"

def RDFS : String := "http://www.w3.org/2000/01/rdf-schema#"

def OWL : String := "http://www.w3.org/2002/07/owl#"

def SKOS : String := "http://www.w3.org/2004/02/skos/core#"

def DCT : String := "http://purl.org/dc/terms/"

def rdfTypeIri : String := RDF ++ "type"

/-- `CLASS_TYPES` from `terms.ts` (a JS `Set`, embedded as its element
list in insertion order). -/
def CLASS_TYPES : List String := [OWL ++ "Class", RDFS ++ "Class"]

/-- `PROPERTY_TYPES` from `terms.ts`. -/
def PROPERTY_TYPES : List String :=
  [RDF ++ "Property",
   OWL ++ "ObjectProperty",
   OWL ++ "DatatypeProperty",
   OWL ++ "AnnotationProperty",
   OWL ++ "FunctionalProperty",
   OWL ++ "InverseFunctionalProperty",
   OWL ++ "TransitiveProperty",
   OWL ++ "SymmetricProperty",
   OWL ++ "AsymmetricProperty",
   OWL ++ "ReflexiveProperty",
   OWL ++ "IrreflexiveProperty"]

/-- `DEF_PREDICATES` from `terms.ts`: the allow-list of definitional
predicates kept in tiny term files. -/
def DEF_PREDICATES : List String :=
  [RDF ++ "type",
   RDFS ++ "label",
   RDFS ++ "comment",
   RDFS ++ "isDefinedBy",
   RDFS ++ "seeAlso",
   RDFS ++ "subClassOf",
   RDFS ++ "subPropertyOf",
   RDFS ++ "domain",
   RDFS ++ "range",
   OWL ++ "equivalentClass",
   OWL ++ "equivalentProperty",
   OWL ++ "inverseOf",
   OWL ++ "deprecated",
   SKOS ++ "prefLabel",
   SKOS ++ "altLabel",
   SKOS ++ "definition",
   SKOS ++ "scopeNote",
   SKOS ++ "example",
   DCT ++ "title",
   DCT ++ "description"]

/-- `litValue` from `terms.ts`: the string value of a literal, `null`
otherwise. -/
def litValue : Term → Option String
  | .lit v => some v
  | _ => none

/-- `pickFirstLiteral` from `terms.ts`: among the quads with the given
subject and predicate, return the first literal value whose trimmed form
is non-empty, trimmed; `null` when there is none. -/
def pickFirstLiteral (store : List Quad) (subjIri predicateIri : String) : Option String :=
  let qs := store.filter fun q => q.subj == Term.iri subjIri && q.pred == Term.iri predicateIri
  ((qs.filterMap fun q => litValue q.obj).find? fun v => jsTrim v != "").map jsTrim

/-- The amended claim's independent specification of the literal picker:
scan the store in order and return the first literal value of a
`(subject, predicate)`-matching quad whose trimmed form is non-empty,
trimmed; `none` when no such literal exists.  (Definition written from
the claim's words, to be compared with `pickFirstLiteral` above.) -/
def specFirstNonBlankLiteral : List Quad → String → String → Option String
  | [], _, _ => none
  | q :: rest, s, p =>
    if q.subj = Term.iri s ∧ q.pred = Term.iri p then
      match q.obj with
      | .lit w => if jsTrim w ≠ "" then some (jsTrim w) else specFirstNonBlankLiteral rest s p
      | _ => specFirstNonBlankLiteral rest s p
    else specFirstNonBlankLiteral rest s p

/-- The `{label?, description?}` record produced by `extractTermSummary`. -/
structure TermSummary where
  label : Option String
  description : Option String
deriving DecidableEq, Repr

/-- `extractTermSummary` from `terms.ts`: label from `skos:prefLabel`,
then `rdfs:label`, then `dct:title`; description from `skos:definition`,
then `rdfs:comment`, then `dct:description`, then `skos:scopeNote`. -/
def extractTermSummary (store : List Quad) (termIri : String) : TermSummary :=
  { label :=
      match pickFirstLiteral store termIri (SKOS ++ "prefLabel") with
      | some v => some v
      | none =>
        match pickFirstLiteral store termIri (RDFS ++ "label") with
        | some v => some v
        | none => pickFirstLiteral store termIri (DCT ++ "title"),
    description :=
      match pickFirstLiteral store termIri (SKOS ++ "definition") with
      | some v => some v
      | none =>
        match pickFirstLiteral store termIri (RDFS ++ "comment") with
        | some v => some v
        | none =>
          match pickFirstLiteral store termIri (DCT ++ "description") with
          | some v => some v
          | none => pickFirstLiteral store termIri (SKOS ++ "scopeNote") }

/-- Lexicographic (code-point) comparison of character lists: the order
used by the JS default array sort on strings. -/
def charListLeB : List Char → List Char → Bool
  | [], _ => true
  | _ :: _, [] => false
  | a :: as, b :: bs =>
    if a.toNat < b.toNat then true
    else if b.toNat < a.toNat then false
    else charListLeB as bs

/-- The JS string order (default `Array.prototype.sort` comparison),
embedded as lexicographic order on Unicode scalar values. -/
def jsStrLe (a b : String) : Prop := charListLeB a.data b.data = true

instance : DecidableRel jsStrLe := fun a b => inferInstanceAs (Decidable (_ = true))

theorem charListLeB_total : ∀ x y : List Char, charListLeB x y = true ∨ charListLeB y x = true
  | [], _ => Or.inl rfl
  | _ :: _, [] => Or.inr rfl
  | a :: as, b :: bs => by
    rcases Nat.lt_trichotomy a.toNat b.toNat with h | h | h
    · left
      simp [charListLeB, h]
    · rcases charListLeB_total as bs with ih | ih
      · left
        simp [charListLeB, h, ih]
      · right
        simp [charListLeB, h.symm, ih]
    · right
      simp [charListLeB, h]

theorem charListLeB_trans :
    ∀ x y z : List Char, charListLeB x y = true → charListLeB y z = true →
      charListLeB x z = true
  | [], _, _ => fun _ _ => rfl
  | a :: as, [], _ => fun h _ => by simp [charListLeB] at h
  | _ :: _, _ :: _, [] => fun _ h => by simp [charListLeB] at h
  | a :: as, b :: bs, c :: cs => fun h1 h2 => by
    rw [charListLeB] at h1 h2 ⊢
    split at h1
    · rename_i hab
      split at h2
      · rename_i hbc
        rw [if_pos (by omega)]
      · split at h2
        · simp at h2
        · rename_i hcb hbc
          rw [if_pos (by omega)]
    · split at h1
      · simp at h1
      · rename_i hba hab
        split at h2
        · rename_i hbc
          rw [if_pos (by omega)]
        · split at h2
          · simp at h2
          · rename_i hcb hbc
            rw [if_neg (by omega), if_neg (by omega)]
            exact charListLeB_trans as bs cs h1 h2

instance : IsTotal String jsStrLe := ⟨fun a b => charListLeB_total a.data b.data⟩

instance : IsTrans String jsStrLe :=
  ⟨fun a b c h1 h2 => charListLeB_trans a.data b.data c.data h1 h2⟩

/-- The subjects of `rdf:type` quads whose subject and object are IRIs and
whose object IRI is in `types`, in store order, with repetitions. -/
def typeQuadSubjects (types : List String) (store : List Quad) : List String :=
  (store.filter fun q => q.pred == Term.iri rdfTypeIri).filterMap fun q =>
    match q.subj, q.obj with
    | .iri s, .iri o => if types.contains o then some s else none
    | _, _ => none

/-- `findClassesAndProperties` from `terms.ts`: deduplicated,
lexicographically sorted class and property subject IRIs. -/
def findClassesAndProperties (store : List Quad) : List String × List String :=
  (((typeQuadSubjects CLASS_TYPES store).dedup).insertionSort jsStrLe,
   ((typeQuadSubjects PROPERTY_TYPES store).dedup).insertionSort jsStrLe)

/-- The quads kept in a tiny term file: subject equals the term IRI and
the predicate is an IRI in the `DEF_PREDICATES` allow-list. -/
def tinyTermQuads (store : List Quad) (termIri : String) : List Quad :=
  (store.filter fun q => q.subj == Term.iri termIri).filter fun q =>
    match q.pred with
    | .iri p => DEF_PREDICATES.contains p
    | _ => false

/-- `writeTinyTermFile` from `terms.ts`, with the disk probe
(`fileExists`) as the boolean `tinyExists` and the N3 writer as the
`serialize` oracle.  Returns the `href` result (`none` = the caller skips
the term) and the content written to the term file (`none` = nothing
written). -/
def writeTinyTermFile (serialize : List Quad → String) (tinyExists : Bool)
    (kind termIri : String) (store : List Quad) : Option String × Option String :=
  let filename := encUriSegment termIri ++ ".ttl"
  if tinyExists then
    (some (kind ++ "/" ++ filename), none)
  else
    let quads := tinyTermQuads store termIri
    if quads = [] then (none, none)
    else (some (kind ++ "/" ++ filename), some (serialize quads))

/-! ## `lov.ts`: version resolution -/

/-- One entry of the `versions` array of the LOV info response.  `none`
models an absent (or, for `issued`, non-string) JSON field. -/
structure LovInfoVersion where
  fileURL : Option String
  issued : Option String
deriving DecidableEq, Repr

/-- A filtered candidate of `extractLatestVersion`: `fileURL`, the issued
string and its parsed millisecond value. -/
structure Cand where
  fileURL : String
  issued : String
  issuedMs : Int
deriving DecidableEq, Repr

/-- The `{fileURL, issued}` record returned by `extractLatestVersion`. -/
structure LatestVersion where
  fileURL : String
  issued : String
deriving DecidableEq, Repr

/-- The candidate list of `extractLatestVersion`: keep entries with a
truthy `fileURL`, a truthy string `issued`, and a finite `Date.parse`
value (`parseMs` is the `Date.parse` oracle; `none` models `NaN`). -/
def lovCandidates (parseMs : String → Option Int) (versions : List LovInfoVersion) :
    List Cand :=
  versions.filterMap fun v =>
    match v.fileURL, v.issued with
    | some f, some s =>
      if f ≠ "" ∧ s ≠ "" then
        match parseMs s with
        | some m => some ⟨f, s, m⟩
        | none => none
      else none
    | _, _ => none

/-- The descending-`issuedMs` order of the JS comparator
`(a, b) => b.issuedMs - a.issuedMs`. -/
def candDesc (a b : Cand) : Prop := b.issuedMs ≤ a.issuedMs

instance : DecidableRel candDesc := fun a b => inferInstanceAs (Decidable (b.issuedMs ≤ a.issuedMs))

instance : IsTotal Cand candDesc := ⟨fun a b => le_total b.issuedMs a.issuedMs⟩

instance : IsTrans Cand candDesc := ⟨fun _ _ _ h1 h2 => le_trans h2 h1⟩

/-- `extractLatestVersion` from `lov.ts`: stable-sort the candidates by
descending `issuedMs` (the JS comparator `b.issuedMs - a.issuedMs`;
JS's stable sort is embedded as a stable insertion sort) and return the
head; `null` when no candidate survives the filters. -/
def extractLatestVersion (parseMs : String → Option Int) (versions : List LovInfoVersion) :
    Option LatestVersion :=
  let candidates := lovCandidates parseMs versions
  match (candidates.insertionSort candDesc).head? with
  | none => none
  | some c => some ⟨c.fileURL, c.issued⟩

/-! ## `http.ts`: the result record of `fetchText` -/

structure FetchResult where
  ok : Bool
  status : Int
  contentType : Option String
  text : Option String
  finalUrl : String
  error : Option String
deriving DecidableEq, Repr

/-! ## `rdf.ts`: `parseAndSerializeToTurtle` -/

/-- The external N3 library: `parse` takes the format, the base IRI and
the input text; `write` is the Turtle writer on a quad list. -/
structure N3Oracle where
  parse : Format → String → String → Except String (List Quad)
  write : List Quad → String

/-- The `{ok: true, store, ttl}` payload of a successful conversion. -/
structure ConvSuccess where
  store : List Quad
  ttl : String
deriving DecidableEq, Repr

/-- `parseAndSerializeToTurtle` from `rdf.ts`: detect the format, parse,
serialize; failures are returned as `Except.error reason`, never thrown. -/
def parseAndSerializeToTurtle (o : N3Oracle) (inputText : String)
    (inputContentType : Option String) (baseIRI sourceUrl : String) :
    Except String ConvSuccess :=
  match n3FormatFor inputContentType sourceUrl with
  | none =>
    .error ("Unsupported format: " ++ inputContentType.getD "unknown" ++ " (" ++ sourceUrl ++ ")")
  | some format =>
    match o.parse format baseIRI inputText with
    | .error e => .error ("Parse failed (" ++ formatName format ++ "): " ++ e)
    | .ok quads => .ok ⟨quads, o.write quads⟩

/-! ## The pipeline module: `processOne`

The fields `prefix`/`namespace`/`fileByPrefix` of the source records are
called `pfx`/`nspace`/`fileByPfx` here. -/

structure ConvertInfo where
  ok : Bool
  reason : Option String
deriving DecidableEq, Repr

/-- The `meta.json` record (`Meta` in the source). -/
structure Meta where
  pfx : String
  uri : String
  nspace : Option String
  lovLatestFileURL : String
  lovLatestIssued : String
  fetchedAt : String
  fetchedFrom : String
  ok : Bool
  status : Int
  contentType : Option String
  finalUrl : String
  skipped : Option Bool
  convert : Option ConvertInfo
  error : Option String
deriving DecidableEq, Repr

/-- `TermInfo` from `terms.ts`. -/
structure TermInfo where
  iri : String
  href : String
  label : Option String
  description : Option String
deriving DecidableEq, Repr

/-- `ResultItem` from the pipeline module. -/
structure ResultItem where
  pfx : String
  uri : String
  nspace : Option String
  lovLatestFileURL : Option String
  lovLatestIssued : Option String
  ok : Bool
  status : Int
  finalUrl : Option String
  fileByPfx : Option String
  fileByUri : Option String
  skipped : Bool
  note : Option String
  classCount : Option Nat
  propertyCount : Option Nat
  classLinks : Option (List TermInfo)
  propLinks : Option (List TermInfo)
deriving DecidableEq, Repr

/-- `VocabItem` from `lov.ts`. -/
structure VocabItem where
  pfx : String
  uri : String
  nspace : Option String
  title : Option String
deriving DecidableEq, Repr

/-- The two artifact locations: `by-prefix/<enc prefix>/` and
`by-uri/<enc uri>/`. -/
inductive Loc where
  | byPfx
  | byUri
deriving DecidableEq, Repr

/-- One file-system write performed by `processOne` (directory creation
aside): the `ontology.ttl` artifact, a `meta.json` record, a tiny term
file, or the per-ontology `index.html`. -/
inductive WriteAction where
  | artifact (loc : Loc) (content : String)
  | metaJson (loc : Loc) (m : Meta)
  | tinyTerm (kind termIri : String) (content : String)
  | vocabIndexHtml (pfx : String) (classLinks propLinks : List TermInfo)
deriving DecidableEq, Repr

/-- The on-disk state consulted by one `processOne` run: the parsed
`meta.json` of the by-prefix location (`none` when absent or unreadable),
whether the by-prefix `ontology.ttl` exists, and whether the tiny file of
a `(kind, termIri)` pair exists. -/
structure DiskEnv where
  existingMeta : Option Meta
  hasFile : Bool
  tinyExists : String → String → Bool

def OUT_FILENAME : String := "ontology.ttl"

/-- The cache check of `processOne` (its `isUpToDate`): the artifact file
exists, the recorded `lovLatestFileURL`/`lovLatestIssued` equal the
freshly resolved ones, and the recorded `convert.ok` is `true`. -/
def isUpToDate (existingMeta : Option Meta) (hasFile : Bool) (latest : LatestVersion) : Bool :=
  hasFile &&
    (match existingMeta with
     | none => false
     | some m =>
       m.lovLatestFileURL == latest.fileURL && m.lovLatestIssued == latest.issued &&
         (match m.convert with
          | some ci => ci.ok
          | none => false))

/-- The `for (const iri of ...)` loops of `processOne`: run
`writeTinyTermFile` for each term, collect a `TermInfo` whenever it
returns an href, and collect the tiny-file writes. -/
def processTerms (serialize : List Quad → String) (tinyExists : String → String → Bool)
    (kind : String) (iris : List String) (store : List Quad) :
    List TermInfo × List WriteAction :=
  iris.foldl
    (fun acc iri =>
      let r := writeTinyTermFile serialize (tinyExists kind iri) kind iri store
      match r.1 with
      | none => acc
      | some href =>
        let s := extractTermSummary store iri
        (acc.1 ++ [⟨iri, href, s.label, s.description⟩],
         acc.2 ++
           (match r.2 with
            | some content => [WriteAction.tinyTerm kind iri content]
            | none => [])))
    ([], [])

/-- `processOne` from the pipeline module, as a pure function of the
oracles and the disk snapshot.  `latest?` is the outcome of the
`extractLatestVersion` call of step 1 (`none` covers both a thrown
registry error and a `null` result); `now` is the `new Date()`
timestamp.  Returns the pushed `ResultItem` and the writes performed. -/
def processOne (o : N3Oracle) (fetch : String → FetchResult) (env : DiskEnv)
    (latest? : Option LatestVersion) (v : VocabItem) (now : String) :
    ResultItem × List WriteAction :=
  match latest? with
  | none =>
    ({ pfx := v.pfx, uri := v.uri, nspace := v.nspace,
       lovLatestFileURL := none, lovLatestIssued := none,
       ok := false, status := 0, finalUrl := none,
       fileByPfx := none, fileByUri := none, skipped := false,
       note := some "Could not fetch LOV info or no versions/fileURL",
       classCount := none, propertyCount := none,
       classLinks := none, propLinks := none }, [])
  | some latest =>
    if isUpToDate env.existingMeta env.hasFile latest then
      ({ pfx := v.pfx, uri := v.uri, nspace := v.nspace,
         lovLatestFileURL := some latest.fileURL, lovLatestIssued := some latest.issued,
         ok := true, status := 304,
         finalUrl := env.existingMeta.map (·.finalUrl),
         fileByPfx := some ("by-prefix/" ++ encodeURIComponent v.pfx ++ "/" ++ OUT_FILENAME),
         fileByUri := some ("by-uri/" ++ encUriSegment v.uri ++ "/" ++ OUT_FILENAME),
         skipped := true, note := none,
         classCount := none, propertyCount := none,
         classLinks := none, propLinks := none }, [])
    else
      let fr := fetch latest.fileURL
      let st :=
        match fr.ok, fr.text with
        | true, some txt =>
          match parseAndSerializeToTurtle o txt fr.contentType v.uri latest.fileURL with
          | .ok conv =>
            let fcp := findClassesAndProperties conv.store
            let cl := processTerms o.write env.tinyExists "classes" fcp.1 conv.store
            let pl := processTerms o.write env.tinyExists "properties" fcp.2 conv.store
            (true, (none : Option String), cl.1, pl.1,
             [WriteAction.artifact .byPfx conv.ttl, WriteAction.artifact .byUri conv.ttl]
               ++ cl.2 ++ pl.2 ++ [WriteAction.vocabIndexHtml v.pfx cl.1 pl.1])
          | .error reason => (false, some reason, [], [], [])
        | _, _ => (false, none, [], [], [])
      let convertOk := st.1
      let convertReason := st.2.1
      let classLinks := st.2.2.1
      let propLinks := st.2.2.2.1
      let preWrites := st.2.2.2.2
      let meta : Meta :=
        { pfx := v.pfx, uri := v.uri, nspace := v.nspace,
          lovLatestFileURL := latest.fileURL, lovLatestIssued := latest.issued,
          fetchedAt := now, fetchedFrom := latest.fileURL,
          ok := fr.ok, status := fr.status, contentType := fr.contentType,
          finalUrl := fr.finalUrl, skipped := none,
          convert := some ⟨convertOk, convertReason⟩, error := fr.error }
      ({ pfx := v.pfx, uri := v.uri, nspace := v.nspace,
         lovLatestFileURL := some latest.fileURL, lovLatestIssued := some latest.issued,
         ok := fr.ok && convertOk,
         status := if fr.ok then (if convertOk then fr.status else 422) else fr.status,
         finalUrl := some fr.finalUrl,
         fileByPfx :=
           if convertOk then
             some ("by-prefix/" ++ encodeURIComponent v.pfx ++ "/" ++ OUT_FILENAME)
           else none,
         fileByUri :=
           if convertOk then
             some ("by-uri/" ++ encUriSegment v.uri ++ "/" ++ OUT_FILENAME)
           else none,
         skipped := false,
         note := match convertReason with | some r => some r | none => fr.error,
         classCount := some classLinks.length, propertyCount := some propLinks.length,
         classLinks := some classLinks, propLinks := some propLinks },
       preWrites ++ [WriteAction.metaJson .byPfx meta, WriteAction.metaJson .byUri meta])

/-! ## The index aggregation of `run` -/

/-- The global `index.json` payload (without `generatedAt`). -/
structure GlobalIndex where
  count : Nat
  okCount : Nat
  skippedCount : Nat
  items : List ResultItem
deriving DecidableEq, Repr

/-- One `namespaces/<enc ns>/index.json` payload. -/
structure NsIndex where
  nspace : String
  count : Nat
  items : List ResultItem
deriving DecidableEq, Repr

/-- The order of the JS comparator `(a, b) => a.prefix.localeCompare(b.prefix)`
(`localeCompare`'s total order is embedded as the lexicographic order on
strings). -/
def pfxLe (a b : ResultItem) : Prop := jsStrLe a.pfx b.pfx

instance : DecidableRel pfxLe := fun a b => inferInstanceAs (Decidable (jsStrLe a.pfx b.pfx))

instance : IsTotal ResultItem pfxLe := ⟨fun a b => charListLeB_total a.pfx.data b.pfx.data⟩

instance : IsTrans ResultItem pfxLe :=
  ⟨fun a b cc h1 h2 => charListLeB_trans a.pfx.data b.pfx.data cc.pfx.data h1 h2⟩

/-- `results.sort((a, b) => a.prefix.localeCompare(b.prefix))` (JS's
stable sort embedded as a stable insertion sort). -/
def sortResults (results : List ResultItem) : List ResultItem :=
  results.insertionSort pfxLe

/-- The keys of the namespace `Map`, in insertion order: first occurrence
order of the truthy namespaces of the (sorted) result list. -/
def nsKeys (results : List ResultItem) : List String :=
  results.foldl
    (fun acc r =>
      match r.nspace with
      | some ns => if ns = "" ∨ ns ∈ acc then acc else acc ++ [ns]
      | none => acc)
    []

/-- The entry list of one namespace group. -/
def nsGroup (results : List ResultItem) (ns : String) : List ResultItem :=
  results.filter fun r => r.nspace == some ns

/-- The aggregation performed by `run` after all workers finish: sort the
results, build the global summary, and build one summary per namespace
group (entries with a falsy namespace are skipped by the grouping). -/
def aggregate (results : List ResultItem) : GlobalIndex × List NsIndex :=
  let sorted := sortResults results
  ({ count := sorted.length,
     okCount := (sorted.filter (·.ok)).length,
     skippedCount := (sorted.filter (·.skipped)).length,
     items := sorted },
   (nsKeys sorted).map fun ns =>
     { nspace := ns, count := (nsGroup sorted ns).length, items := nsGroup sorted ns })


/-! ## Concrete scenario used by the witnesses -/

def wParseMs : String → Option Int := fun s =>
  if s = "a" then some 5 else if s = "b" then some 9 else none

def wVersions : List LovInfoVersion :=
  [⟨some "fa", some "a"⟩, ⟨some "fb", some "b"⟩, ⟨none, some "b"⟩, ⟨some "fc", some "nan"⟩]

def wLv : LatestVersion := ⟨"http://x/v.ttl", "2023-01-01"⟩

def wVocab : VocabItem := ⟨"ex", "http://e/", some "http://e/", none⟩

def wOracle : N3Oracle := ⟨fun _ _ _ => .error "bad syntax", fun _ => "TTL"⟩

def wFetch404 : String → FetchResult := fun u => ⟨false, 404, none, none, u, none⟩

def wFetchTtl : String → FetchResult := fun u =>
  ⟨true, 200, some "text/turtle", some "body", u, none⟩

def wEnv0 : DiskEnv := ⟨none, false, fun _ _ => false⟩

def wMetaHit : Meta :=
  ⟨"ex", "http://e/", some "http://e/", "http://x/v.ttl", "2023-01-01", "t", "f",
   true, 200, none, "http://final/", none, some ⟨true, none⟩, none⟩

def wEnvHit : DiskEnv := ⟨some wMetaHit, true, fun _ _ => false⟩

def wStore5 : List Quad :=
  [⟨.iri "http://e/B", .iri rdfTypeIri, .iri (OWL ++ "Class")⟩,
   ⟨.iri "http://e/A", .iri rdfTypeIri, .iri (RDFS ++ "Class")⟩,
   ⟨.iri "http://e/p", .iri rdfTypeIri, .iri (OWL ++ "DatatypeProperty")⟩]

def wG7 : List Quad :=
  [⟨.iri "http://e/t", .iri (SKOS ++ "prefLabel"), .lit ""⟩,
   ⟨.iri "http://e/t", .iri (RDFS ++ "label"), .lit "x"⟩]

def wG7b : List Quad :=
  [⟨.iri "http://e/t", .iri (SKOS ++ "prefLabel"), .lit "P"⟩,
   ⟨.iri "http://e/t", .iri (RDFS ++ "label"), .lit "x"⟩]

def wG7c : List Quad :=
  [⟨.iri "http://e/t", .iri (SKOS ++ "prefLabel"), .lit "a"⟩,
   ⟨.iri "http://e/t", .iri (SKOS ++ "prefLabel"), .lit "b"⟩]

def wStore10 : List Quad := [⟨.iri "http://e/C", .iri "http://other/p", .lit "v"⟩]

def wMeta404 : Meta :=
  ⟨"ex", "http://e/", some "http://e/", "http://x/v.ttl", "2023-01-01", "T", "http://x/v.ttl",
   false, 404, none, "http://x/v.ttl", none, some ⟨false, none⟩, none⟩

def wResults : List ResultItem :=
  [{ pfx := "b", uri := "http://b/", nspace := some "http://nsb/",
     lovLatestFileURL := none, lovLatestIssued := none, ok := true, status := 200,
     finalUrl := none, fileByPfx := none, fileByUri := none, skipped := false,
     note := none, classCount := none, propertyCount := none,
     classLinks := none, propLinks := none },
   { pfx := "a", uri := "http://a/", nspace := none,
     lovLatestFileURL := none, lovLatestIssued := none, ok := false, status := 0,
     finalUrl := none, fileByPfx := none, fileByUri := none, skipped := true,
     note := none, classCount := none, propertyCount := none,
     classLinks := none, propLinks := none }]

/-! ## Lemmas about URI encoding -/




theorem hexRound : ∀ d : Nat, d < 16 → fromHexDigit (toHexDigit d) = some d := by decide

theorem hexByte_escByte (b : Nat) (hb : b < 256) :
    hexByte (toHexDigit (b / 16)) (toHexDigit (b % 16)) = some b := by
  have h1 : b / 16 < 16 := by omega
  have h2 : b % 16 < 16 := by omega
  rw [hexByte, hexRound _ h1, hexRound _ h2]
  show some (16 * (b / 16) + b % 16) = some b
  congr 1
  omega

theorem unreserved_ne_pct {c : Char} (h : isUnreservedChar c = true) : c ≠ '%' := by
  intro he
  subst he
  exact absurd h (by decide)

theorem mkChar?_toNat (c : Char) : mkChar? c.toNat = some c := by
  have hv : c.toNat.isValidChar := c.valid
  rw [mkChar?, if_pos hv, Char.ofNat_toNat]

theorem contByte_escByte (b : Nat) (hb : b < 256) (hc : isContByte b = true) (tail : List Char) :
    contByte (escByte b ++ tail) = some (b, tail) := by
  rw [escByte]
  show contByte ('%' :: toHexDigit (b / 16) :: toHexDigit (b % 16) :: tail) = some (b, tail)
  rw [contByte, hexByte_escByte b hb]
  show (if isContByte b = true then some (b, tail) else none) = some (b, tail)
  rw [if_pos hc]

theorem decodeAux_cons_ne_pct {c : Char} (h : c ≠ '%') (rest : List Char) :
    decodeURIComponentAux (c :: rest) = cons? (some c) (decodeURIComponentAux rest) := by
  rw [decodeURIComponentAux.eq_def]
  simp only [if_neg h]


theorem decodeAux_esc1 {a b : Char} {y1 : Nat} (hy : hexByte a b = some y1)
    (h1 : y1 < 128) (rest1 : List Char) :
    decodeURIComponentAux ('%' :: a :: b :: rest1) =
      cons? (mkChar? y1) (decodeURIComponentAux rest1) := by
  rw [decodeURIComponentAux.eq_def]
  simp [hy, h1]

theorem splitCont {y2 : Nat} {rest1 rest2 : List Char}
    (hcb : contByte rest1 = some (y2, rest2)) {y2' : Nat} {rest2' : List Char}
    (h : contByte rest1 = some (y2', rest2')) : y2' = y2 ∧ rest2' = rest2 := by
  rw [hcb] at h
  simpa [eq_comm] using h

theorem decodeAux_esc2 {a b : Char} {y1 y2 : Nat} {rest1 rest2 : List Char}
    (hy : hexByte a b = some y1) (hlo : 194 ≤ y1) (hhi : y1 < 224)
    (hcb : contByte rest1 = some (y2, rest2)) :
    decodeURIComponentAux ('%' :: a :: b :: rest1) =
      cons? (mkChar2? y1 y2) (decodeURIComponentAux rest2) := by
  rw [decodeURIComponentAux.eq_def]
  simp only [hy, hhi, show ¬ y1 < 128 by omega, show ¬ y1 < 194 by omega,
    if_true, if_false, ite_true, ite_false]
  split
  · rename_i y2' rest2' h2'
    obtain ⟨rfl, rfl⟩ := splitCont hcb h2'
    rfl
  · rename_i h2'
    rw [hcb] at h2'
    exact absurd h2' (by simp)


theorem decodeAux_esc3 {a b : Char} {y1 y2 y3 : Nat} {rest1 rest2 rest3 : List Char}
    (hy : hexByte a b = some y1) (hlo : 224 ≤ y1) (hhi : y1 < 240)
    (hcb2 : contByte rest1 = some (y2, rest2)) (hcb3 : contByte rest2 = some (y3, rest3)) :
    decodeURIComponentAux ('%' :: a :: b :: rest1) =
      cons? (mkChar3? y1 y2 y3) (decodeURIComponentAux rest3) := by
  rw [decodeURIComponentAux.eq_def]
  simp only [hy, hhi, show ¬ y1 < 128 by omega, show ¬ y1 < 194 by omega,
    show ¬ y1 < 224 by omega, if_true, if_false, ite_true, ite_false]
  split
  · rename_i y2' rest2' h2'
    obtain ⟨rfl, rfl⟩ := splitCont hcb2 h2'
    split
    · rename_i y3' rest3' h3'
      obtain ⟨rfl, rfl⟩ := splitCont hcb3 h3'
      rfl
    · rename_i h3'
      rw [hcb3] at h3'
      exact absurd h3' (by simp)
  · rename_i h2'
    rw [hcb2] at h2'
    exact absurd h2' (by simp)

theorem decodeAux_esc4 {a b : Char} {y1 y2 y3 y4 : Nat} {rest1 rest2 rest3 rest4 : List Char}
    (hy : hexByte a b = some y1) (hlo : 240 ≤ y1) (hhi : y1 < 245)
    (hcb2 : contByte rest1 = some (y2, rest2)) (hcb3 : contByte rest2 = some (y3, rest3))
    (hcb4 : contByte rest3 = some (y4, rest4)) :
    decodeURIComponentAux ('%' :: a :: b :: rest1) =
      cons? (mkChar4? y1 y2 y3 y4) (decodeURIComponentAux rest4) := by
  rw [decodeURIComponentAux.eq_def]
  simp only [hy, hhi, show ¬ y1 < 128 by omega, show ¬ y1 < 194 by omega,
    show ¬ y1 < 224 by omega, show ¬ y1 < 240 by omega, if_true, if_false, ite_true, ite_false]
  split
  · rename_i y2' rest2' h2'
    obtain ⟨rfl, rfl⟩ := splitCont hcb2 h2'
    split
    · rename_i y3' rest3' h3'
      obtain ⟨rfl, rfl⟩ := splitCont hcb3 h3'
      split
      · rename_i y4' rest4' h4'
        obtain ⟨rfl, rfl⟩ := splitCont hcb4 h4'
        rfl
      · rename_i h4'
        rw [hcb4] at h4'
        exact absurd h4' (by simp)
    · rename_i h3'
      rw [hcb3] at h3'
      exact absurd h3' (by simp)
  · rename_i h2'
    rw [hcb2] at h2'
    exact absurd h2' (by simp)


theorem decodeAux_escByte_cons (b : Nat) (tail : List Char) :
    decodeURIComponentAux (escByte b ++ tail) =
      decodeURIComponentAux ('%' :: toHexDigit (b / 16) :: toHexDigit (b % 16) :: tail) := rfl

theorem isContByte_cont (m : Nat) (h : m < 64) : isContByte (128 + m) = true := by
  simp only [isContByte, Bool.and_eq_true, decide_eq_true_eq]
  omega

theorem decodeAux_encChar (c : Char) (rest : List Char) :
    decodeURIComponentAux (encChar c ++ rest) = cons? (some c) (decodeURIComponentAux rest) := by
  by_cases hu : isUnreservedChar c
  · rw [encChar, if_pos hu, List.singleton_append, decodeAux_cons_ne_pct (unreserved_ne_pct hu)]
  · rw [encChar, if_neg hu]
    have hlt : c.toNat < 1114112 := by
      show c.val.toNat < 1114112
      rcases c.valid with h | ⟨_, h⟩ <;> omega
    rcases Nat.lt_or_ge c.toNat 128 with h1 | h1
    · rw [utf8Bytes, if_pos h1]
      simp only [List.flatMap_cons, List.flatMap_nil, List.append_nil]
      rw [decodeAux_escByte_cons,
        decodeAux_esc1 (hexByte_escByte _ (by omega)) h1 rest, mkChar?_toNat]
    · rcases Nat.lt_or_ge c.toNat 2048 with h2 | h2
      · rw [utf8Bytes, if_neg (by omega), if_pos h2]
        simp only [List.flatMap_cons, List.flatMap_nil, List.append_nil, List.append_assoc]
        rw [decodeAux_escByte_cons,
          decodeAux_esc2 (hexByte_escByte _ (by omega)) (by omega) (by omega)
            (contByte_escByte _ (by omega) (isContByte_cont _ (by omega)) rest)]
        rw [mkChar2?, show (192 + c.toNat / 64 - 192) * 64 + (128 + c.toNat % 64 - 128) = c.toNat
          from by omega, mkChar?_toNat]
      · rcases Nat.lt_or_ge c.toNat 65536 with h3 | h3
        · rw [utf8Bytes, if_neg (by omega), if_neg (by omega), if_pos h3]
          simp only [List.flatMap_cons, List.flatMap_nil, List.append_nil, List.append_assoc]
          rw [decodeAux_escByte_cons,
            decodeAux_esc3 (hexByte_escByte _ (by omega)) (by omega) (by omega)
              (contByte_escByte _ (by omega) (isContByte_cont _ (by omega)) _)
              (contByte_escByte _ (by omega) (isContByte_cont _ (by omega)) rest)]
          rw [mkChar3?, show (224 + c.toNat / 4096 - 224) * 4096 +
              (128 + c.toNat / 64 % 64 - 128) * 64 + (128 + c.toNat % 64 - 128) = c.toNat
            from by omega, if_pos (show 2048 ≤ c.toNat from h2), mkChar?_toNat]
        · rw [utf8Bytes, if_neg (by omega), if_neg (by omega), if_neg (by omega)]
          simp only [List.flatMap_cons, List.flatMap_nil, List.append_nil, List.append_assoc]
          rw [decodeAux_escByte_cons,
            decodeAux_esc4 (hexByte_escByte _ (by omega)) (by omega) (by omega)
              (contByte_escByte _ (by omega) (isContByte_cont _ (by omega)) _)
              (contByte_escByte _ (by omega) (isContByte_cont _ (by omega)) _)
              (contByte_escByte _ (by omega) (isContByte_cont _ (by omega)) rest)]
          rw [mkChar4?, show (240 + c.toNat / 262144 - 240) * 262144 +
              (128 + c.toNat / 4096 % 64 - 128) * 4096 +
              (128 + c.toNat / 64 % 64 - 128) * 64 + (128 + c.toNat % 64 - 128) = c.toNat
            from by omega, if_pos (show 65536 ≤ c.toNat from h3), mkChar?_toNat]

theorem decodeAux_flatMap_enc (l : List Char) :
    decodeURIComponentAux (l.flatMap encChar) = some l := by
  induction l with
  | nil =>
    rw [List.flatMap_nil, decodeURIComponentAux.eq_def]
  | cons c t ih =>
    rw [List.flatMap_cons, decodeAux_encChar, ih]
    rfl

theorem decode_encode (s : String) :
    decodeURIComponent (encodeURIComponent s) = some s := by
  rw [decodeURIComponent, encodeURIComponent]
  show (decodeURIComponentAux (s.data.flatMap encChar)).map _ = some s
  rw [decodeAux_flatMap_enc]
  rfl

theorem encodeURIComponent_injective : Function.Injective encodeURIComponent := by
  intro x y h
  have hx := decode_encode x
  have hy := decode_encode y
  rw [h, hy] at hx
  exact (Option.some.injEq _ _).mp hx |>.symm ▸ rfl



/-! ## Lemmas about the term classifier, the resolver, the pipeline and the aggregation -/

theorem mem_typeQuadSubjects {types : List String} {store : List Quad} {x : String} :
    x ∈ typeQuadSubjects types store ↔
      ∃ q ∈ store, q.pred = Term.iri rdfTypeIri ∧ q.subj = Term.iri x ∧
        ∃ t, q.obj = Term.iri t ∧ t ∈ types := by
  simp only [typeQuadSubjects, List.mem_filterMap, List.mem_filter]
  constructor
  · rintro ⟨q, ⟨hq, hpred⟩, hmap⟩
    refine ⟨q, hq, ?_, ?_⟩
    · exact eq_of_beq hpred
    · rcases hs : q.subj with s | s | s <;> rcases ho : q.obj with t | t | t <;>
        rw [hs, ho] at hmap <;> simp at hmap
      case iri.iri =>
        rcases hmap with ⟨hc, rfl⟩
        exact ⟨rfl, t, rfl, by simpa using hc⟩
  · rintro ⟨q, hq, hpred, hsubj, t, hobj, ht⟩
    refine ⟨q, ⟨hq, by simp [hpred]⟩, ?_⟩
    rw [hsubj, hobj]
    simp [ht]

theorem findClassesAndProperties_classes_mem (store : List Quad) (x : String) :
    x ∈ (findClassesAndProperties store).1 ↔
      ∃ q ∈ store, q.pred = Term.iri rdfTypeIri ∧ q.subj = Term.iri x ∧
        ∃ t, q.obj = Term.iri t ∧ t ∈ CLASS_TYPES := by
  rw [findClassesAndProperties]
  simp only [List.mem_insertionSort, List.mem_dedup]
  exact mem_typeQuadSubjects

theorem findClassesAndProperties_sorted (store : List Quad) :
    (findClassesAndProperties store).1.Sorted jsStrLe ∧ (findClassesAndProperties store).1.Nodup := by
  constructor
  · exact List.sorted_insertionSort _ _
  · exact ((List.perm_insertionSort _ _).nodup_iff).mpr (List.nodup_dedup _)

theorem pt_card : PROPERTY_TYPES.length = 11 ∧ PROPERTY_TYPES.Nodup := by
  constructor
  · rfl
  · decide


theorem litValue_eq_some {t : Term} {v : String} : litValue t = some v ↔ t = Term.lit v := by
  cases t <;> simp [litValue]

theorem pickFirstLiteral_eq_none {store : List Quad} {s p : String} :
    pickFirstLiteral store s p = none ↔
      ∀ q ∈ store, q.subj = Term.iri s → q.pred = Term.iri p →
        ∀ v, q.obj = Term.lit v → jsTrim v = "" := by
  rw [pickFirstLiteral]
  simp only [Option.map_eq_none', List.find?_eq_none, List.mem_filterMap, List.mem_filter,
    Bool.and_eq_true, beq_iff_eq, bne_iff_ne, ne_eq, not_not]
  constructor
  · intro h q hq hs hp v hv
    exact h v ⟨q, ⟨⟨hq, hs, hp⟩, litValue_eq_some.mpr hv⟩⟩
  · rintro h v ⟨q, ⟨⟨hq, hs, hp⟩, hlit⟩⟩
    exact h q hq hs hp v (litValue_eq_some.mp hlit)

theorem pickFirstLiteral_eq_some {store : List Quad} {s p : String} {v : String}
    (h : pickFirstLiteral store s p = some v) :
    v ≠ "" ∧ ∃ w, jsTrim w = v ∧
      ∃ q ∈ store, q.subj = Term.iri s ∧ q.pred = Term.iri p ∧ q.obj = Term.lit w := by
  rw [pickFirstLiteral] at h
  simp only [Option.map_eq_some'] at h
  obtain ⟨w, hfind, rfl⟩ := h
  have hmem := List.mem_of_find?_eq_some hfind
  have hpred := List.find?_some hfind
  simp only [List.mem_filterMap, List.mem_filter, Bool.and_eq_true, beq_iff_eq] at hmem
  obtain ⟨q, ⟨⟨hq, hs, hp⟩, hlit⟩⟩ := hmem
  simp only [bne_iff_ne, ne_eq] at hpred
  exact ⟨hpred, w, rfl, q, hq, hs, hp, litValue_eq_some.mp hlit⟩

theorem pickFirstLiteral_eq_spec (store : List Quad) (s p : String) :
    pickFirstLiteral store s p = specFirstNonBlankLiteral store s p := by
  induction store with
  | nil => rfl
  | cons q rest ih =>
    rw [specFirstNonBlankLiteral]
    by_cases hm : q.subj = Term.iri s ∧ q.pred = Term.iri p
    · rw [if_pos hm]
      have hf : (q.subj == Term.iri s && q.pred == Term.iri p) = true := by
        simp [hm.1, hm.2]
      rcases ho : q.obj with w | w | w
      · simp only [pickFirstLiteral, List.filter_cons, hf, if_true, List.filterMap_cons,
          ho, litValue] at ih ⊢
        exact ih
      · simp only [pickFirstLiteral, List.filter_cons, hf, if_true, List.filterMap_cons,
          ho, litValue] at ih ⊢
        exact ih
      · simp only [pickFirstLiteral, List.filter_cons, hf, if_true, List.filterMap_cons,
          ho, litValue, List.find?_cons] at ih ⊢
        by_cases hw : jsTrim w ≠ ""
        · have hb : (jsTrim w != "") = true := by simpa using hw
          simp [hb, hw]
        · have hb : (jsTrim w != "") = false := by
            simpa using not_not.mp (by simpa using hw)
          simp only [hb, if_neg hw, cond_false]
          exact ih
    · rw [if_neg hm]
      have hf : (q.subj == Term.iri s && q.pred == Term.iri p) = false := by
        rcases not_and_or.mp hm with h | h <;> simp [h]
      simp only [pickFirstLiteral, List.filter_cons, hf, if_false] at ih ⊢
      exact ih

theorem extractTermSummary_label_pref {store : List Quad} {t v : String}
    (h : pickFirstLiteral store t (SKOS ++ "prefLabel") = some v) :
    (extractTermSummary store t).label = some v := by
  simp [extractTermSummary, h]

theorem extractTermSummary_label_rdfs {store : List Quad} {t v : String}
    (h1 : pickFirstLiteral store t (SKOS ++ "prefLabel") = none)
    (h2 : pickFirstLiteral store t (RDFS ++ "label") = some v) :
    (extractTermSummary store t).label = some v := by
  simp [extractTermSummary, h1, h2]

theorem mem_tinyTermQuads {store : List Quad} {t : String} {q : Quad} :
    q ∈ tinyTermQuads store t ↔
      q ∈ store ∧ q.subj = Term.iri t ∧ ∃ p, q.pred = Term.iri p ∧ p ∈ DEF_PREDICATES := by
  simp only [tinyTermQuads, List.mem_filter, Bool.and_eq_true, beq_iff_eq]
  constructor
  · rintro ⟨⟨hq, hs⟩, hmatch⟩
    refine ⟨hq, hs, ?_⟩
    rcases hp : q.pred with p | p | p <;> rw [hp] at hmatch <;> simp at hmatch
    exact ⟨p, rfl, by simpa using hmatch⟩
  · rintro ⟨hq, hs, p, hp, hmem⟩
    refine ⟨⟨hq, hs⟩, ?_⟩
    rw [hp]
    simpa using hmem

theorem tinyTermQuads_eq_nil {store : List Quad} {t : String} :
    tinyTermQuads store t = [] ↔
      ∀ q ∈ store, q.subj = Term.iri t → ∀ p, q.pred = Term.iri p → p ∉ DEF_PREDICATES := by
  rw [List.eq_nil_iff_forall_not_mem]
  constructor
  · intro h q hq hs p hp hmem
    exact h q (mem_tinyTermQuads.mpr ⟨hq, hs, p, hp, hmem⟩)
  · intro h q hmem
    obtain ⟨hq, hs, p, hp, hpm⟩ := mem_tinyTermQuads.mp hmem
    exact h q hq hs p hp hpm

theorem writeTinyTermFile_fastPath (serialize : List Quad → String) (kind termIri : String)
    (store : List Quad) :
    writeTinyTermFile serialize true kind termIri store =
      (some (kind ++ "/" ++ (encUriSegment termIri ++ ".ttl")), none) := by
  rw [writeTinyTermFile, if_pos rfl]

theorem writeTinyTermFile_none_iff (serialize : List Quad → String) (tinyE : Bool)
    (kind termIri : String) (store : List Quad) :
    (writeTinyTermFile serialize tinyE kind termIri store).1 = none ↔
      tinyE = false ∧ tinyTermQuads store termIri = [] := by
  rw [writeTinyTermFile]
  cases tinyE
  · by_cases h : tinyTermQuads store termIri = [] <;> simp [h]
  · simp


theorem mem_lovCandidates {parseMs : String → Option Int} {versions : List LovInfoVersion}
    {c : Cand} :
    c ∈ lovCandidates parseMs versions ↔
      ∃ v ∈ versions, v.fileURL = some c.fileURL ∧ c.fileURL ≠ "" ∧
        v.issued = some c.issued ∧ c.issued ≠ "" ∧ parseMs c.issued = some c.issuedMs := by
  simp only [lovCandidates, List.mem_filterMap]
  constructor
  · rintro ⟨v, hv, hmap⟩
    rcases hf : v.fileURL with _ | f <;> rcases hi : v.issued with _ | s <;>
      rw [hf, hi] at hmap <;> simp at hmap
    obtain ⟨⟨hfne, hine⟩, hmap2⟩ := hmap
    rcases hm : parseMs s with _ | m <;> rw [hm] at hmap2 <;> simp at hmap2
    subst hmap2
    exact ⟨v, hv, hf, hfne, hi, hine, hm⟩
  · rintro ⟨v, hv, hf, hfne, hi, hine, hm⟩
    refine ⟨v, hv, ?_⟩
    rw [hf, hi]
    simp [hfne, hine, hm]

theorem extractLatestVersion_none_iff {parseMs : String → Option Int}
    {versions : List LovInfoVersion} :
    extractLatestVersion parseMs versions = none ↔ lovCandidates parseMs versions = [] := by
  rw [extractLatestVersion]
  rcases hh : (lovCandidates parseMs versions).insertionSort candDesc |>.head? with _ | c
  · simp only [hh]
    have h0 : (lovCandidates parseMs versions).insertionSort candDesc = [] :=
      List.head?_eq_none_iff.mp hh
    have hperm := List.perm_insertionSort candDesc (lovCandidates parseMs versions)
    rw [h0] at hperm
    simp [hperm.symm.eq_nil]
  · simp only [hh]
    constructor
    · intro h
      simp at h
    · intro h
      obtain ⟨t, ht⟩ := List.head?_eq_some_iff.mp hh
      rw [h] at ht
      simp [List.insertionSort] at ht

theorem extractLatestVersion_max {parseMs : String → Option Int}
    {versions : List LovInfoVersion} {lv : LatestVersion}
    (h : extractLatestVersion parseMs versions = some lv) :
    ∃ c ∈ lovCandidates parseMs versions, lv = ⟨c.fileURL, c.issued⟩ ∧
      ∀ c2 ∈ lovCandidates parseMs versions, c2.issuedMs ≤ c.issuedMs := by
  rw [extractLatestVersion] at h
  rcases hh : (lovCandidates parseMs versions).insertionSort candDesc |>.head? with _ | c
  · rw [hh] at h
    simp at h
  · rw [hh] at h
    simp only [Option.some.injEq] at h
    obtain ⟨t, ht⟩ := List.head?_eq_some_iff.mp hh
    have hperm := List.perm_insertionSort candDesc (lovCandidates parseMs versions)
    have hsorted := List.sorted_insertionSort candDesc (lovCandidates parseMs versions)
    refine ⟨c, ?_, h.symm, ?_⟩
    · have hc : c ∈ (lovCandidates parseMs versions).insertionSort candDesc := by
        rw [ht]
        simp
      exact hperm.mem_iff.mp hc
    · intro c2 hc2
      have hc2s : c2 ∈ (lovCandidates parseMs versions).insertionSort candDesc :=
        hperm.mem_iff.mpr hc2
      rw [ht] at hc2s hsorted
      rcases List.mem_cons.mp hc2s with rfl | hc2t
      · exact le_rfl
      · exact (List.pairwise_cons.mp hsorted).1 c2 hc2t

theorem processOne_none (o : N3Oracle) (fetch : String → FetchResult) (env : DiskEnv)
    (v : VocabItem) (now : String) :
    processOne o fetch env none v now =
      ({ pfx := v.pfx, uri := v.uri, nspace := v.nspace,
         lovLatestFileURL := none, lovLatestIssued := none,
         ok := false, status := 0, finalUrl := none,
         fileByPfx := none, fileByUri := none, skipped := false,
         note := some "Could not fetch LOV info or no versions/fileURL",
         classCount := none, propertyCount := none,
         classLinks := none, propLinks := none }, []) := rfl

theorem isUpToDate_iff {em : Option Meta} {hf : Bool} {lv : LatestVersion} :
    isUpToDate em hf lv = true ↔
      hf = true ∧ ∃ m, em = some m ∧ m.lovLatestFileURL = lv.fileURL ∧
        m.lovLatestIssued = lv.issued ∧ ∃ ci, m.convert = some ci ∧ ci.ok = true := by
  cases hf
  · simp [isUpToDate]
  · cases em with
    | none => simp [isUpToDate]
    | some m =>
      rcases hc : m.convert with _ | ci
      · simp [isUpToDate, hc]
      · simp only [isUpToDate, hc, Bool.true_and, Bool.and_eq_true, beq_iff_eq,
          Option.some.injEq, true_and]
        constructor
        · rintro ⟨⟨h1, h2⟩, h3⟩
          exact ⟨m, rfl, h1, h2, ci, hc, h3⟩
        · rintro ⟨m2, rfl, h1, h2, ci2, hci, h3⟩
          rw [hc] at hci
          cases hci
          exact ⟨⟨h1, h2⟩, h3⟩

theorem processOne_upToDate {o : N3Oracle} {fetch : String → FetchResult} {env : DiskEnv}
    {lv : LatestVersion} (v : VocabItem) (now : String)
    (h : isUpToDate env.existingMeta env.hasFile lv = true) :
    processOne o fetch env (some lv) v now =
      ({ pfx := v.pfx, uri := v.uri, nspace := v.nspace,
         lovLatestFileURL := some lv.fileURL, lovLatestIssued := some lv.issued,
         ok := true, status := 304,
         finalUrl := env.existingMeta.map (·.finalUrl),
         fileByPfx := some ("by-prefix/" ++ encodeURIComponent v.pfx ++ "/" ++ OUT_FILENAME),
         fileByUri := some ("by-uri/" ++ encUriSegment v.uri ++ "/" ++ OUT_FILENAME),
         skipped := true, note := none,
         classCount := none, propertyCount := none,
         classLinks := none, propLinks := none }, []) := by
  simp only [processOne, h, if_true]

theorem processOne_skipped_eq {o : N3Oracle} {fetch : String → FetchResult} {env : DiskEnv}
    {lv : LatestVersion} (v : VocabItem) (now : String) :
    (processOne o fetch env (some lv) v now).1.skipped =
      isUpToDate env.existingMeta env.hasFile lv := by
  by_cases h : isUpToDate env.existingMeta env.hasFile lv = true
  · rw [processOne_upToDate v now h, h]
  · have h2 : isUpToDate env.existingMeta env.hasFile lv = false := by
      revert h
      cases isUpToDate env.existingMeta env.hasFile lv <;> simp
    rw [h2]
    simp only [processOne, h2, Bool.false_eq_true, if_false]


theorem parseAndSerializeToTurtle_parseFailed {o : N3Oracle} {ct : Option String}
    {base url txt : String} {fmt : Format} {e : String}
    (hfmt : n3FormatFor ct url = some fmt) (hp : o.parse fmt base txt = .error e) :
    parseAndSerializeToTurtle o txt ct base url =
      .error ("Parse failed (" ++ formatName fmt ++ "): " ++ e) := by
  rw [parseAndSerializeToTurtle, hfmt]
  simp only [hp]

theorem parseAndSerializeToTurtle_unsupported {o : N3Oracle} {ct : Option String}
    {base url txt : String} (hfmt : n3FormatFor ct url = none) :
    parseAndSerializeToTurtle o txt ct base url =
      .error ("Unsupported format: " ++ ct.getD "unknown" ++ " (" ++ url ++ ")") := by
  rw [parseAndSerializeToTurtle, hfmt]

theorem processOne_convError (o : N3Oracle) (fetch : String → FetchResult) (env : DiskEnv)
    (lv : LatestVersion) (v : VocabItem) (now txt reason : String)
    (hmiss : isUpToDate env.existingMeta env.hasFile lv = false)
    (hok : (fetch lv.fileURL).ok = true)
    (htxt : (fetch lv.fileURL).text = some txt)
    (herr : parseAndSerializeToTurtle o txt (fetch lv.fileURL).contentType v.uri lv.fileURL =
      .error reason) :
    (processOne o fetch env (some lv) v now).1.ok = false ∧
    (processOne o fetch env (some lv) v now).1.status = 422 ∧
    (processOne o fetch env (some lv) v now).1.note = some reason ∧
    (processOne o fetch env (some lv) v now).2 =
      [WriteAction.metaJson .byPfx
        { pfx := v.pfx, uri := v.uri, nspace := v.nspace,
          lovLatestFileURL := lv.fileURL, lovLatestIssued := lv.issued,
          fetchedAt := now, fetchedFrom := lv.fileURL,
          ok := (fetch lv.fileURL).ok, status := (fetch lv.fileURL).status,
          contentType := (fetch lv.fileURL).contentType,
          finalUrl := (fetch lv.fileURL).finalUrl, skipped := none,
          convert := some ⟨false, some reason⟩, error := (fetch lv.fileURL).error },
       WriteAction.metaJson .byUri
        { pfx := v.pfx, uri := v.uri, nspace := v.nspace,
          lovLatestFileURL := lv.fileURL, lovLatestIssued := lv.issued,
          fetchedAt := now, fetchedFrom := lv.fileURL,
          ok := (fetch lv.fileURL).ok, status := (fetch lv.fileURL).status,
          contentType := (fetch lv.fileURL).contentType,
          finalUrl := (fetch lv.fileURL).finalUrl, skipped := none,
          convert := some ⟨false, some reason⟩, error := (fetch lv.fileURL).error }] := by
  simp only [processOne, hmiss, Bool.false_eq_true, if_false, hok, htxt, herr]
  simp [hok]

theorem processOne_fetchFail (o : N3Oracle) (fetch : String → FetchResult) (env : DiskEnv)
    (lv : LatestVersion) (v : VocabItem) (now : String)
    (hmiss : isUpToDate env.existingMeta env.hasFile lv = false)
    (hfail : (fetch lv.fileURL).ok = false ∨ (fetch lv.fileURL).text = none) :
    (processOne o fetch env (some lv) v now).1.ok = false ∧
    ((fetch lv.fileURL).ok = false →
      (processOne o fetch env (some lv) v now).1.status = (fetch lv.fileURL).status) ∧
    (processOne o fetch env (some lv) v now).1.note = (fetch lv.fileURL).error ∧
    (processOne o fetch env (some lv) v now).2 =
      [WriteAction.metaJson .byPfx
        { pfx := v.pfx, uri := v.uri, nspace := v.nspace,
          lovLatestFileURL := lv.fileURL, lovLatestIssued := lv.issued,
          fetchedAt := now, fetchedFrom := lv.fileURL,
          ok := (fetch lv.fileURL).ok, status := (fetch lv.fileURL).status,
          contentType := (fetch lv.fileURL).contentType,
          finalUrl := (fetch lv.fileURL).finalUrl, skipped := none,
          convert := some ⟨false, none⟩, error := (fetch lv.fileURL).error },
       WriteAction.metaJson .byUri
        { pfx := v.pfx, uri := v.uri, nspace := v.nspace,
          lovLatestFileURL := lv.fileURL, lovLatestIssued := lv.issued,
          fetchedAt := now, fetchedFrom := lv.fileURL,
          ok := (fetch lv.fileURL).ok, status := (fetch lv.fileURL).status,
          contentType := (fetch lv.fileURL).contentType,
          finalUrl := (fetch lv.fileURL).finalUrl, skipped := none,
          convert := some ⟨false, none⟩, error := (fetch lv.fileURL).error }] := by
  rcases hfail with hok | htxt
  · simp only [processOne, hmiss, Bool.false_eq_true, if_false, hok]
    simp
  · rcases hok : (fetch lv.fileURL).ok with _ | _
    · simp only [processOne, hmiss, Bool.false_eq_true, if_false, hok]
      simp
    · simp only [processOne, hmiss, Bool.false_eq_true, if_false, hok, htxt]
      simp [hok]


theorem sortResults_perm (results : List ResultItem) : (sortResults results).Perm results :=
  List.perm_insertionSort pfxLe results

theorem sortResults_sorted (results : List ResultItem) :
    (sortResults results).Sorted pfxLe :=
  List.sorted_insertionSort pfxLe results

theorem nsKeys_go_props (l : List ResultItem) :
    ∀ acc : List String,
      acc.Nodup → (∀ x ∈ acc, x ≠ "") →
      (l.foldl (fun acc r =>
        match r.nspace with
        | some ns => if ns = "" ∨ ns ∈ acc then acc else acc ++ [ns]
        | none => acc) acc).Nodup ∧
      (∀ x ∈ (l.foldl (fun acc r =>
        match r.nspace with
        | some ns => if ns = "" ∨ ns ∈ acc then acc else acc ++ [ns]
        | none => acc) acc), x ≠ "") := by
  induction l with
  | nil => intro acc h1 h2; exact ⟨h1, h2⟩
  | cons r t ih =>
    intro acc h1 h2
    rcases hns : r.nspace with _ | ns
    · simp only [List.foldl_cons, hns]
      exact ih acc h1 h2
    · simp only [List.foldl_cons, hns]
      by_cases hc : ns = "" ∨ ns ∈ acc
      · rw [if_pos hc]
        exact ih acc h1 h2
      · rw [if_neg hc]
        push_neg at hc
        refine ih _ ?_ ?_
        · simp [List.nodup_append, h1, hc.2]
        · intro x hx
          rcases List.mem_append.mp hx with hx | hx
          · exact h2 x hx
          · simp only [List.mem_singleton] at hx
            subst hx
            exact hc.1

theorem nsKeys_nodup (results : List ResultItem) :
    (nsKeys results).Nodup ∧ ∀ x ∈ nsKeys results, x ≠ "" := by
  exact nsKeys_go_props results [] (by simp) (by simp)

theorem mem_nsGroup {results : List ResultItem} {ns : String} {r : ResultItem} :
    r ∈ nsGroup results ns ↔ r ∈ results ∧ r.nspace = some ns := by
  simp [nsGroup, List.mem_filter]


theorem findClassesAndProperties_props_mem (store : List Quad) (x : String) :
    x ∈ (findClassesAndProperties store).2 ↔
      ∃ q ∈ store, q.pred = Term.iri rdfTypeIri ∧ q.subj = Term.iri x ∧
        ∃ t, q.obj = Term.iri t ∧ t ∈ PROPERTY_TYPES := by
  rw [findClassesAndProperties]
  simp only [List.mem_insertionSort, List.mem_dedup]
  exact mem_typeQuadSubjects

theorem findClassesAndProperties_props_sorted (store : List Quad) :
    (findClassesAndProperties store).2.Sorted jsStrLe ∧ (findClassesAndProperties store).2.Nodup := by
  constructor
  · exact List.sorted_insertionSort _ _
  · exact ((List.perm_insertionSort _ _).nodup_iff).mpr (List.nodup_dedup _)

/-- C3 counterexample: with content type `application/rdf+xml` (an
explicitly unsupported family) and a source URL ending in `.ttl`, the
detector returns `turtle`, not "unsupported". -/
theorem claim_C3_counterexample :
    contentTypeBase (some "application/rdf+xml") = some "application/rdf+xml" ∧
    urlExt "http://example.org/v.ttl" = "ttl" ∧
    n3FormatFor (some "application/rdf+xml") "http://example.org/v.ttl" = some Format.turtle := by
  decide

/-- C3 (amended): for the two unsupported MIME families the detector
returns "unsupported" (`none`) whenever the URL extension is not one of
the four supported ones; a supported extension hint overrides the
unsupported content type. -/
theorem claim_C3_unsupported_families (ct : Option String) (url : String)
    (hct : contentTypeBase ct = some "application/rdf+xml" ∨
           contentTypeBase ct = some "application/ld+json")
    (hext : urlExt url ≠ "ttl" ∧ urlExt url ≠ "n3" ∧ urlExt url ≠ "nt" ∧ urlExt url ≠ "trig") :
    n3FormatFor ct url = none := by
  obtain ⟨h1, h2, h3, h4⟩ := hext
  rcases hct with h | h <;>
    simp [n3FormatFor, h, h1, h2, h3, h4]

/-- C3 witness: the amended theorem at a concrete input. -/
theorem claim_C3_witness : n3FormatFor (some "application/ld+json") "http://example.org/data" = none :=
  claim_C3_unsupported_families (some "application/ld+json") "http://example.org/data"
    (Or.inr (by decide)) (by decide)

/-- C5 counterexample: the fixed property-type set of the source has
eleven distinct IRIs, not ten as the claim states. -/
theorem claim_C5_counterexample :
    PROPERTY_TYPES.length = 11 ∧ PROPERTY_TYPES.Nodup := by
  constructor
  · rfl
  · decide

/-- C5 (amended): `findClassesAndProperties` returns as classes exactly
the IRI subjects with an `rdf:type` quad whose object IRI is in the
two-element class-type set, and as properties exactly the IRI subjects
with an `rdf:type` quad whose object IRI is in the eleven-element
property-type set; both outputs are deduplicated and lexicographically
sorted. -/
theorem claim_C5_classification (store : List Quad) :
    (∀ x, x ∈ (findClassesAndProperties store).1 ↔
      ∃ q ∈ store, q.pred = Term.iri rdfTypeIri ∧ q.subj = Term.iri x ∧
        ∃ t, q.obj = Term.iri t ∧ t ∈ CLASS_TYPES) ∧
    (∀ x, x ∈ (findClassesAndProperties store).2 ↔
      ∃ q ∈ store, q.pred = Term.iri rdfTypeIri ∧ q.subj = Term.iri x ∧
        ∃ t, q.obj = Term.iri t ∧ t ∈ PROPERTY_TYPES) ∧
    CLASS_TYPES.length = 2 ∧ PROPERTY_TYPES.length = 11 ∧
    (findClassesAndProperties store).1.Sorted jsStrLe ∧
    (findClassesAndProperties store).1.Nodup ∧
    (findClassesAndProperties store).2.Sorted jsStrLe ∧
    (findClassesAndProperties store).2.Nodup :=
  ⟨findClassesAndProperties_classes_mem store,
   findClassesAndProperties_props_mem store,
   rfl, rfl,
   (findClassesAndProperties_sorted store).1,
   (findClassesAndProperties_sorted store).2,
   (findClassesAndProperties_props_sorted store).1,
   (findClassesAndProperties_props_sorted store).2⟩

/-- C5 witness: the membership characterization applied to a concrete
three-quad graph. -/
theorem claim_C5_witness : "http://e/A" ∈ (findClassesAndProperties wStore5).1 :=
  ((claim_C5_classification wStore5).1 "http://e/A").mpr
    ⟨⟨.iri "http://e/A", .iri rdfTypeIri, .iri (RDFS ++ "Class")⟩, by decide, rfl, rfl,
     RDFS ++ "Class", rfl, by decide⟩

/-- C7 counterexample: on a graph where the subject has the blank literal
`""` as `skos:prefLabel` and the literal `"x"` as `rdfs:label`, both
label predicates have a literal, yet the summary label is `"x"` (the
`rdfs:label` value), not the `skos:prefLabel` literal. -/
theorem claim_C7_counterexample :
    (⟨.iri "http://e/t", .iri (SKOS ++ "prefLabel"), .lit ""⟩ : Quad) ∈ wG7 ∧
    (⟨.iri "http://e/t", .iri (RDFS ++ "label"), .lit "x"⟩ : Quad) ∈ wG7 ∧
    (extractTermSummary wG7 "http://e/t").label = some "x" ∧
    (extractTermSummary wG7 "http://e/t").label ≠ some "" := by
  decide

/-- C7 (amended): the label is chosen by trying `skos:prefLabel`, then
`rdfs:label`, then `dct:title`, where a predicate wins when it has at
least one literal whose trimmed value is non-empty, and the first such
literal (in store order), trimmed, is returned — the final conjunct pins
the picker to the claim-side specification `specFirstNonBlankLiteral`,
which scans the store in order; the description analogously tries
`skos:definition`, then `rdfs:comment`, then `dct:description`, then
`skos:scopeNote`; a subject with no such literal on any candidate
predicate yields `none`, not an error. -/
theorem claim_C7_summary_priority (store : List Quad) (t : String) :
    (∀ p, pickFirstLiteral store t p = none ↔
      ∀ q ∈ store, q.subj = Term.iri t → q.pred = Term.iri p →
        ∀ v, q.obj = Term.lit v → jsTrim v = "") ∧
    (∀ p v, pickFirstLiteral store t p = some v →
      v ≠ "" ∧ ∃ w, jsTrim w = v ∧
        ∃ q ∈ store, q.subj = Term.iri t ∧ q.pred = Term.iri p ∧ q.obj = Term.lit w) ∧
    (∀ v, pickFirstLiteral store t (SKOS ++ "prefLabel") = some v →
      (extractTermSummary store t).label = some v) ∧
    (pickFirstLiteral store t (SKOS ++ "prefLabel") = none →
      ∀ v, pickFirstLiteral store t (RDFS ++ "label") = some v →
        (extractTermSummary store t).label = some v) ∧
    (pickFirstLiteral store t (SKOS ++ "prefLabel") = none →
      pickFirstLiteral store t (RDFS ++ "label") = none →
      (extractTermSummary store t).label = pickFirstLiteral store t (DCT ++ "title")) ∧
    (∀ v, pickFirstLiteral store t (SKOS ++ "definition") = some v →
      (extractTermSummary store t).description = some v) ∧
    (pickFirstLiteral store t (SKOS ++ "definition") = none →
      ∀ v, pickFirstLiteral store t (RDFS ++ "comment") = some v →
        (extractTermSummary store t).description = some v) ∧
    (pickFirstLiteral store t (SKOS ++ "definition") = none →
      pickFirstLiteral store t (RDFS ++ "comment") = none →
      ∀ v, pickFirstLiteral store t (DCT ++ "description") = some v →
        (extractTermSummary store t).description = some v) ∧
    (pickFirstLiteral store t (SKOS ++ "definition") = none →
      pickFirstLiteral store t (RDFS ++ "comment") = none →
      pickFirstLiteral store t (DCT ++ "description") = none →
      (extractTermSummary store t).description =
        pickFirstLiteral store t (SKOS ++ "scopeNote")) ∧
    (∀ p, pickFirstLiteral store t p = specFirstNonBlankLiteral store t p) := by
  refine ⟨fun p => pickFirstLiteral_eq_none, fun p v h => pickFirstLiteral_eq_some h,
    ?_, ?_, ?_, ?_, ?_, ?_, ?_, fun p => pickFirstLiteral_eq_spec store t p⟩
  · intro v h
    simp [extractTermSummary, h]
  · intro h1 v h2
    simp [extractTermSummary, h1, h2]
  · intro h1 h2
    simp [extractTermSummary, h1, h2]
  · intro v h
    simp [extractTermSummary, h]
  · intro h1 v h2
    simp [extractTermSummary, h1, h2]
  · intro h1 h2 v h3
    simp [extractTermSummary, h1, h2, h3]
  · intro h1 h2 h3
    simp [extractTermSummary, h1, h2, h3]

/-- C7 witness: the priority conjunct at a graph whose `skos:prefLabel`
is the non-blank literal `"P"`, and the first-literal conjunct at a graph
with two non-blank `skos:prefLabel` literals, where the first one wins. -/
theorem claim_C7_witness :
    (extractTermSummary wG7b "http://e/t").label = some "P" ∧
    pickFirstLiteral wG7c "http://e/t" (SKOS ++ "prefLabel") =
      specFirstNonBlankLiteral wG7c "http://e/t" (SKOS ++ "prefLabel") ∧
    pickFirstLiteral wG7c "http://e/t" (SKOS ++ "prefLabel") = some "a" :=
  ⟨(claim_C7_summary_priority wG7b "http://e/t").2.2.1 "P" (by decide),
   (claim_C7_summary_priority wG7c "http://e/t").2.2.2.2.2.2.2.2.2 (SKOS ++ "prefLabel"),
   by decide⟩

/-- C9: decoding inverts the tiny-term-file key encoding, so the encoding
and the derived file name are injective. -/
theorem claim_C9_reversible_encoding :
    (∀ x : String, decodeURIComponent (encUriSegment x) = some x) ∧
    (∀ x y : String, encUriSegment x = encUriSegment y → x = y) ∧
    (∀ x y : String, encUriSegment x ++ ".ttl" = encUriSegment y ++ ".ttl" → x = y) := by
  have hinj : ∀ x y : String, encUriSegment x = encUriSegment y → x = y := by
    intro x y h
    have hx := decode_encode x
    rw [show encodeURIComponent x = encUriSegment x from rfl, h] at hx
    rw [show encUriSegment y = encodeURIComponent y from rfl, decode_encode y] at hx
    exact (Option.some.injEq _ _).mp hx.symm
  refine ⟨fun x => decode_encode x, hinj, fun x y h => hinj x y ?_⟩
  have hd := congrArg String.data h
  rw [String.data_append, String.data_append] at hd
  exact congrArg String.mk (List.append_cancel_right hd)

/-- C9 witness: the round trip and file-name injectivity at concrete
inputs. -/
theorem claim_C9_witness :
    decodeURIComponent (encUriSegment "http://e/č ž#frag") = some "http://e/č ž#frag" ∧
    ("http://a/" : String) = "http://a/" :=
  ⟨claim_C9_reversible_encoding.1 "http://e/č ž#frag",
   claim_C9_reversible_encoding.2.2 "http://a/" "http://a/" rfl⟩

/-- C10: when the tiny file already exists `writeTinyTermFile` returns
the relative href without consulting the graph and writes nothing; the
`none` outcome occurs exactly when the file does not exist and the graph
has no allow-listed quad for the term. -/
theorem claim_C10_tiny_fast_path (serialize : List Quad → String) (tinyE : Bool)
    (kind termIri : String) (store : List Quad) :
    (tinyE = true →
      writeTinyTermFile serialize tinyE kind termIri store =
        (some (kind ++ "/" ++ (encUriSegment termIri ++ ".ttl")), none)) ∧
    ((writeTinyTermFile serialize tinyE kind termIri store).1 = none ↔
      tinyE = false ∧ ∀ q ∈ store, q.subj = Term.iri termIri →
        ∀ p, q.pred = Term.iri p → p ∉ DEF_PREDICATES) := by
  constructor
  · rintro rfl
    exact writeTinyTermFile_fastPath serialize kind termIri store
  · rw [writeTinyTermFile_none_iff, tinyTermQuads_eq_nil]

/-- C10 witness: the fast path applied to a store with zero allow-listed
quads for the term. -/
theorem claim_C10_witness :
    writeTinyTermFile (fun _ => "TTL") true "classes" "http://e/C" wStore10 =
      (some ("classes" ++ "/" ++ (encUriSegment "http://e/C" ++ ".ttl")), none) :=
  (claim_C10_tiny_fast_path (fun _ => "TTL") true "classes" "http://e/C" wStore10).1 rfl


/-- C1: the pipeline takes the cache-hit path (skipped result, ok, no
writes, and no dependence on the network or parser oracles) exactly when
the artifact file exists, the recorded meta matches the freshly resolved
version, and the recorded conversion succeeded. -/
theorem claim_C1_cache_contract (o : N3Oracle) (fetch : String → FetchResult) (env : DiskEnv)
    (lv : LatestVersion) (v : VocabItem) (now : String) :
    ((processOne o fetch env (some lv) v now).1.skipped = true ↔
      env.hasFile = true ∧ ∃ m, env.existingMeta = some m ∧
        m.lovLatestFileURL = lv.fileURL ∧ m.lovLatestIssued = lv.issued ∧
        ∃ ci, m.convert = some ci ∧ ci.ok = true) ∧
    ((processOne o fetch env (some lv) v now).1.skipped = true →
      (processOne o fetch env (some lv) v now).1.ok = true ∧
      (processOne o fetch env (some lv) v now).2 = [] ∧
      ∀ (o2 : N3Oracle) (fetch2 : String → FetchResult),
        processOne o2 fetch2 env (some lv) v now = processOne o fetch env (some lv) v now) := by
  constructor
  · rw [processOne_skipped_eq]
    exact isUpToDate_iff
  · intro hskip
    rw [processOne_skipped_eq] at hskip
    rw [processOne_upToDate v now hskip]
    refine ⟨rfl, rfl, fun o2 fetch2 => ?_⟩
    rw [processOne_upToDate v now hskip]

/-- C1 witness: a concrete cache hit. -/
theorem claim_C1_witness :
    (processOne wOracle wFetch404 wEnvHit (some wLv) wVocab "T").1.ok = true ∧
    (processOne wOracle wFetch404 wEnvHit (some wLv) wVocab "T").2 = [] :=
  let h := (claim_C1_cache_contract wOracle wFetch404 wEnvHit wLv wVocab "T").2 (by decide)
  ⟨h.1, h.2.1⟩

/-- C2 counterexample: on an HTTP 404 fetch the result record shows
`ok = false` and `status = 404` and no artifact is written, but a
metadata record recording the failure IS written to both locations,
contradicting the claim that no metadata record is written on failure. -/
theorem claim_C2_counterexample :
    (processOne wOracle wFetch404 wEnv0 (some wLv) wVocab "T").1.ok = false ∧
    (processOne wOracle wFetch404 wEnv0 (some wLv) wVocab "T").1.status = 404 ∧
    (processOne wOracle wFetch404 wEnv0 (some wLv) wVocab "T").2 =
      [WriteAction.metaJson .byPfx wMeta404, WriteAction.metaJson .byUri wMeta404] ∧
    (processOne wOracle wFetch404 wEnv0 (some wLv) wVocab "T").2 ≠ [] := by
  decide

/-- C2 (amended): on a fetch or conversion failure no artifact, tiny term
file or browsing index is written (so the prior artifact is untouched),
the result shows `ok = false` with the HTTP status of the failed fetch,
and the only writes are one metadata record per location recording the
failed attempt. -/
theorem claim_C2_failure_frame (o : N3Oracle) (fetch : String → FetchResult) (env : DiskEnv)
    (lv : LatestVersion) (v : VocabItem) (now : String)
    (hmiss : isUpToDate env.existingMeta env.hasFile lv = false)
    (hfail : (fetch lv.fileURL).ok = false ∨ (fetch lv.fileURL).text = none ∨
      ∃ txt reason, (fetch lv.fileURL).text = some txt ∧
        parseAndSerializeToTurtle o txt (fetch lv.fileURL).contentType v.uri lv.fileURL =
          .error reason) :
    (processOne o fetch env (some lv) v now).1.ok = false ∧
    ((fetch lv.fileURL).ok = false →
      (processOne o fetch env (some lv) v now).1.status = (fetch lv.fileURL).status) ∧
    ∃ m : Meta, m.ok = (fetch lv.fileURL).ok ∧ m.status = (fetch lv.fileURL).status ∧
      (∃ ci, m.convert = some ci ∧ ci.ok = false) ∧
      (processOne o fetch env (some lv) v now).2 =
        [WriteAction.metaJson .byPfx m, WriteAction.metaJson .byUri m] := by
  rcases hfail with h | h | ⟨txt, reason, htxt, herr⟩
  · obtain ⟨h1, h2, _, h4⟩ := processOne_fetchFail o fetch env lv v now hmiss (Or.inl h)
    exact ⟨h1, h2, _, rfl, rfl, ⟨_, rfl, rfl⟩, h4⟩
  · obtain ⟨h1, h2, _, h4⟩ := processOne_fetchFail o fetch env lv v now hmiss (Or.inr h)
    exact ⟨h1, h2, _, rfl, rfl, ⟨_, rfl, rfl⟩, h4⟩
  · by_cases hok : (fetch lv.fileURL).ok = true
    · obtain ⟨h1, _, _, h4⟩ := processOne_convError o fetch env lv v now txt reason hmiss hok htxt herr
      refine ⟨h1, fun hc => ?_, _, rfl, rfl, ⟨_, rfl, rfl⟩, h4⟩
      rw [hok] at hc
      cases hc
    · have hok2 : (fetch lv.fileURL).ok = false := by
        revert hok
        cases (fetch lv.fileURL).ok <;> simp
      obtain ⟨h1, h2, _, h4⟩ := processOne_fetchFail o fetch env lv v now hmiss (Or.inl hok2)
      exact ⟨h1, h2, _, rfl, rfl, ⟨_, rfl, rfl⟩, h4⟩

/-- C2 witness: the failure frame at the concrete 404 scenario. -/
theorem claim_C2_witness :
    (processOne wOracle wFetch404 wEnv0 (some wLv) wVocab "T").1.ok = false ∧
    (processOne wOracle wFetch404 wEnv0 (some wLv) wVocab "T").1.status = 404 :=
  let h := claim_C2_failure_frame wOracle wFetch404 wEnv0 wLv wVocab "T"
    (by decide) (Or.inl (by decide))
  ⟨h.1, h.2.1 (by decide)⟩

/-- C4: `extractLatestVersion` keeps exactly the versions with a truthy
file URL and a truthy string `issued` that parses to a finite value,
returns a candidate with maximal parsed timestamp, returns `none` exactly
when no candidate survives, and the caller records a `none` outcome (also
produced on a thrown registry error) as a non-fatal skip record. -/
theorem claim_C4_latest_version (parseMs : String → Option Int)
    (versions : List LovInfoVersion) :
    (extractLatestVersion parseMs versions = none ↔ lovCandidates parseMs versions = []) ∧
    (∀ c : Cand, c ∈ lovCandidates parseMs versions ↔
      ∃ v ∈ versions, v.fileURL = some c.fileURL ∧ c.fileURL ≠ "" ∧
        v.issued = some c.issued ∧ c.issued ≠ "" ∧ parseMs c.issued = some c.issuedMs) ∧
    (∀ lv, extractLatestVersion parseMs versions = some lv →
      ∃ c ∈ lovCandidates parseMs versions, lv = ⟨c.fileURL, c.issued⟩ ∧
        ∀ c2 ∈ lovCandidates parseMs versions, c2.issuedMs ≤ c.issuedMs) ∧
    (∀ (o : N3Oracle) (fetch : String → FetchResult) (env : DiskEnv) (v : VocabItem)
        (now : String),
      (processOne o fetch env none v now).1.ok = false ∧
      (processOne o fetch env none v now).1.status = 0 ∧
      (processOne o fetch env none v now).1.skipped = false ∧
      (processOne o fetch env none v now).1.note =
        some "Could not fetch LOV info or no versions/fileURL" ∧
      (processOne o fetch env none v now).2 = []) :=
  ⟨extractLatestVersion_none_iff,
   fun _ => mem_lovCandidates,
   fun _ h => extractLatestVersion_max h,
   fun o fetch env v now => by rw [processOne_none]; exact ⟨rfl, rfl, rfl, rfl, rfl⟩⟩

/-- C4 witness: the maximality conjunct at a concrete version list. -/
theorem claim_C4_witness :
    ∃ c ∈ lovCandidates wParseMs wVersions,
      (⟨"fb", "b"⟩ : LatestVersion) = ⟨c.fileURL, c.issued⟩ ∧
      ∀ c2 ∈ lovCandidates wParseMs wVersions, c2.issuedMs ≤ c.issuedMs :=
  (claim_C4_latest_version wParseMs wVersions).2.2.1 ⟨"fb", "b"⟩ (by decide)

/-- C6: a fetched-but-unconvertible vocabulary is recorded with
`ok = false`, status 422 and the structured failure reason as its note;
the conversion returns a structured failure whose reason carries the
attempted serialization kind and the parser message for a parse error,
and a descriptive reason for an unsupported format. -/
theorem claim_C6_conversion_failure :
    (∀ (o : N3Oracle) (fetch : String → FetchResult) (env : DiskEnv) (lv : LatestVersion)
        (v : VocabItem) (now txt reason : String),
      isUpToDate env.existingMeta env.hasFile lv = false →
      (fetch lv.fileURL).ok = true →
      (fetch lv.fileURL).text = some txt →
      parseAndSerializeToTurtle o txt (fetch lv.fileURL).contentType v.uri lv.fileURL =
        .error reason →
      (processOne o fetch env (some lv) v now).1.ok = false ∧
      (processOne o fetch env (some lv) v now).1.status = 422 ∧
      (processOne o fetch env (some lv) v now).1.note = some reason) ∧
    (∀ (o : N3Oracle) (ct : Option String) (base url txt : String) (fmt : Format) (e : String),
      n3FormatFor ct url = some fmt → o.parse fmt base txt = .error e →
      parseAndSerializeToTurtle o txt ct base url =
        .error ("Parse failed (" ++ formatName fmt ++ "): " ++ e)) ∧
    (∀ (o : N3Oracle) (ct : Option String) (base url txt : String),
      n3FormatFor ct url = none →
      parseAndSerializeToTurtle o txt ct base url =
        .error ("Unsupported format: " ++ ct.getD "unknown" ++ " (" ++ url ++ ")")) := by
  refine ⟨?_, ?_, ?_⟩
  · intro o fetch env lv v now txt reason hmiss hok htxt herr
    obtain ⟨h1, h2, h3, _⟩ := processOne_convError o fetch env lv v now txt reason hmiss hok htxt herr
    exact ⟨h1, h2, h3⟩
  · intro o ct base url txt fmt e hfmt hp
    exact parseAndSerializeToTurtle_parseFailed hfmt hp
  · intro o ct base url txt hfmt
    exact parseAndSerializeToTurtle_unsupported hfmt

/-- C6 witness: a concrete parse failure surfaces as status 422 with the
structured reason as note. -/
theorem claim_C6_witness :
    (processOne wOracle wFetchTtl wEnv0 (some wLv) wVocab "T").1.status = 422 ∧
    (processOne wOracle wFetchTtl wEnv0 (some wLv) wVocab "T").1.note =
      some "Parse failed (turtle): bad syntax" :=
  let h := claim_C6_conversion_failure.1 wOracle wFetchTtl wEnv0 wLv wVocab "T"
    "body" "Parse failed (turtle): bad syntax" (by decide) (by decide) (by decide) (by rfl)
  ⟨h.2.1, h.2.2⟩

/-- C8: the aggregation sorts the results by prefix, reports total,
succeeded and skipped counts, groups results by namespace excluding falsy
namespaces from every group (while they remain in the global list), and
produces exactly one summary per namespace group plus the aggregate. -/
theorem claim_C8_aggregation (results : List ResultItem) :
    ((aggregate results).1.items = sortResults results ∧
     (sortResults results).Perm results ∧
     (sortResults results).Sorted pfxLe) ∧
    ((aggregate results).1.count = results.length ∧
     (aggregate results).1.okCount = (results.filter (·.ok)).length ∧
     (aggregate results).1.skippedCount = (results.filter (·.skipped)).length) ∧
    ((aggregate results).2.length = (nsKeys (sortResults results)).length ∧
     (nsKeys (sortResults results)).Nodup) ∧
    (∀ e ∈ (aggregate results).2,
      e.nspace ≠ "" ∧ e.count = e.items.length ∧
      e.items = nsGroup (sortResults results) e.nspace ∧
      ∀ r ∈ e.items, r.nspace = some e.nspace) ∧
    (∀ r ∈ results, r.nspace = none ∨ r.nspace = some "" →
      r ∈ (aggregate results).1.items ∧ ∀ e ∈ (aggregate results).2, r ∉ e.items) := by
  refine ⟨⟨rfl, sortResults_perm results, sortResults_sorted results⟩, ⟨?_, ?_, ?_⟩,
    ⟨List.length_map _ _, (nsKeys_nodup _).1⟩, ?_, ?_⟩
  · exact (sortResults_perm results).length_eq
  · exact (List.Perm.filter _ (sortResults_perm results)).length_eq
  · exact (List.Perm.filter _ (sortResults_perm results)).length_eq
  · intro e he
    simp only [aggregate, List.mem_map] at he
    obtain ⟨ns, hns, rfl⟩ := he
    exact ⟨(nsKeys_nodup _).2 ns hns, rfl, rfl, fun r hr => (mem_nsGroup.mp hr).2⟩
  · intro r hr hfalsy
    constructor
    · exact (sortResults_perm results).mem_iff.mpr hr
    · intro e he hmem
      simp only [aggregate, List.mem_map] at he
      obtain ⟨ns, hns, rfl⟩ := he
      have hns2 := (mem_nsGroup.mp hmem).2
      rcases hfalsy with h | h
      · rw [h] at hns2
        cases hns2
      · rw [h] at hns2
        cases hns2
        exact (nsKeys_nodup _).2 "" hns rfl

/-- C8 witness: the exclusion conjunct at a concrete result list whose
second entry has no namespace. -/
theorem claim_C8_witness :
    wResults[1] ∈ (aggregate wResults).1.items ∧
    ∀ e ∈ (aggregate wResults).2, wResults[1] ∉ e.items :=
  (claim_C8_aggregation wResults).2.2.2.2 wResults[1] (by decide) (Or.inl rfl)

end LovMirror
